import Mathlib

/-!
Verification of the AiAssistantConversationDashboard repository.

This file gives a shallow embedding, in Lean 4, of the parts of the
repository that the specification talks about:

* `src/utils.py`   — `escape_html_preserve_markdown` (the content sanitizer),
* `src/display.py` — `format_footnotes` and the timeline construction inside
                     `display_formatted_conversation`,
* `src/database.py`— `fetch_conversation_data`.

Python strings are modelled as `List Char` (converted at the boundaries to
`String`), Python `re.sub` calls are modelled by hand-written leftmost-match
scanners that reproduce CPython's semantics for the concrete patterns used by
the code (ordered alternation, lazy `*?`/`+?`, greedy classes), Python
exceptions are modelled with `Except`, and MongoDB collections are modelled as
lists of records with `find_one` as `List.find?`.

All recursive functions are structurally recursive (scanners take an explicit
fuel argument, always instantiated with the length of the scanned list, which
is an upper bound on the number of scanning steps), so every definition
evaluates inside the kernel.
-/

set_option maxRecDepth 16384

namespace Dashboard

/-- The backtick character (spelled via its code point). -/
def backtick : Char := Char.ofNat 96

/-- The apostrophe character `U+0027`. -/
def aposChar : Char := Char.ofNat 39

/-- The double-quote character `U+0022`. -/
def quoteChar : Char := Char.ofNat 34

/-!
## `src/styles.py`

`CODE_BLOCK_STYLE` is defined in `src/styles.py` as a plain multi-line
*string* (a CSS fragment).  `src/utils.py` nevertheless subscripts it with
string keys (`CODE_BLOCK_STYLE['bg_color']`), which in Python raises
`TypeError: string indices must be integers` the moment a code block is
re-inserted.  We record the constant here because that type mismatch drives
the sanitizer's error behaviour.
-/

/-- `CODE_BLOCK_STYLE` from `src/styles.py` — a `str`, not a `dict`. -/
def CODE_BLOCK_STYLE : String :=
  "\n    background-color: #f8f9fa;\n    border: 1px solid #dee2e6;\n    border-radius: 0.25rem;\n    padding: 1rem;\n    margin: 1rem 0;\n    font-family: monospace;\n    white-space: pre-wrap;\n    word-wrap: break-word;\n"

/-!
## Generic `re.sub` scanner

`scanSubF m fuel l` walks `l` from the left.  At each position it asks the
matcher `m` for a match; a matcher returns `some (replacement, n)` when the
pattern matches a prefix of length `n ≥ 1` of the remaining input (all the
patterns appearing in the repository can only match non-empty text).  On a
match the replacement is emitted and scanning resumes after the matched text,
exactly like `re.sub`.  The fuel argument only makes the recursion structural;
`scanSub` instantiates it with the length of the input, which always
suffices because every step consumes at least one character.
-/

def scanSubF (m : List Char → Option (List Char × Nat)) :
    Nat → List Char → List Char
  | _, [] => []
  | 0, l => l
  | fuel + 1, c :: rest =>
    match m (c :: rest) with
    | some (rep, n + 1) => rep ++ scanSubF m fuel (rest.drop n)
    | _ => c :: scanSubF m fuel rest

def scanSub (m : List Char → Option (List Char × Nat)) (l : List Char) :
    List Char :=
  scanSubF m l.length l

/-!
## `src/utils.py` — the content sanitizer

```
_code_block_regex = re.compile(r'```[\s\S]*?```|`[^`]+`')
_html_tag_regex   = re.compile(r'</?(div|span|p)[^>]*>')
_bold_regex       = re.compile(r'\*\*(.+?)\*\*|__(.+?)__')
_italic_regex     = re.compile(r'\*(.+?)\*|_(.+?)_')
```
-/

/-- Three backticks, the fence delimiter of `_code_block_regex`. -/
def tripleTick : List Char := List.replicate 3 backtick

/-- Earliest index at which `` ``` `` occurs (the lazy `[\s\S]*?` closing
search of the first alternative of `_code_block_regex`). -/
def findTriple : List Char → Option Nat
  | [] => none
  | c :: rest =>
    if tripleTick.isPrefixOf (c :: rest) then some 0
    else (findTriple rest).map (· + 1)

/-- For the input after an opening backtick: length of the  `[^`]+` run when
it is followed by a closing backtick (the run cannot cross a backtick, so the
closing one is the first backtick after at least one other character). -/
def inlineCloseLen : List Char → Option Nat
  | [] => none
  | c :: rest =>
    if c = backtick then none
    else if [backtick].isPrefixOf rest then some 1
    else (inlineCloseLen rest).map (· + 1)

/-- The second alternative `` `[^`]+` `` of `_code_block_regex`: match length
at the current position, if any. -/
def matchInlineCode (l : List Char) : Option Nat :=
  match l with
  | c :: rest =>
    if c = backtick then (inlineCloseLen rest).map (fun m => 1 + m + 1)
    else none
  | [] => none

/-- `_code_block_regex` at the current position: the fenced alternative is
tried first (ordered alternation), the inline-code alternative second.
Returns the length of the match. -/
def matchCodeAt (l : List Char) : Option Nat :=
  if tripleTick.isPrefixOf l then
    match findTriple (l.drop 3) with
    | some m => some (3 + m + 3)
    | none => matchInlineCode l
  else matchInlineCode l

/-- The placeholder string `f"CODE_BLOCK_{i}_PLACEHOLDER"`. -/
def placeholderText (k : Nat) : List Char :=
  ("CODE_BLOCK_" ++ toString k ++ "_PLACEHOLDER").toList

/-- `re.sub(_code_block_regex, save_code_block, text)`: every code block is
replaced by its numbered placeholder and collected, in order, into the
`code_blocks` list.  `k` is the number of blocks already collected; fuel as in
`scanSubF`. -/
def saveCodeBlocksF : Nat → List Char → Nat → List Char × List (List Char)
  | _, [], _ => ([], [])
  | 0, l, _ => (l, [])
  | fuel + 1, c :: rest, k =>
    match matchCodeAt (c :: rest) with
    | some (n + 1) =>
      let pr := saveCodeBlocksF fuel (rest.drop n) (k + 1)
      (placeholderText k ++ pr.1, (c :: rest.take n) :: pr.2)
    | _ =>
      let pr := saveCodeBlocksF fuel rest k
      (c :: pr.1, pr.2)

def saveCodeBlocks (l : List Char) : List Char × List (List Char) :=
  saveCodeBlocksF l.length l 0

/-- Python `str.replace(c, rep)` for a single-character pattern. -/
def pyReplace (c : Char) (rep : List Char) : List Char → List Char
  | [] => []
  | a :: rest => (if a = c then rep else [a]) ++ pyReplace c rep rest

/-- The escaping chain of `escape_html_preserve_markdown`:
```
processed.replace('&', '&amp;').replace('<', '<').replace('>', '>')
         .replace('"', '"').replace("'", '&#39;')
```
Note that, in the source, `<`, `>` and `"` are replaced *by themselves*: only
`&` and the apostrophe are actually escaped. -/
def pyEscapeStep (l : List Char) : List Char :=
  pyReplace aposChar ("&#39;".toList)
    (pyReplace quoteChar [quoteChar]
      (pyReplace '>' ['>']
        (pyReplace '<' ['<']
          (pyReplace '&' ("&amp;".toList) l))))

/-- The tag-name group `(div|span|p)` of `_html_tag_regex`, tried in the
alternation order of the pattern; returns the length of the name matched. -/
def tagNameLen (l : List Char) : Option Nat :=
  if "div".toList.isPrefixOf l then some 3
  else if "span".toList.isPrefixOf l then some 4
  else if "p".toList.isPrefixOf l then some 1
  else none

/-- `_html_tag_regex = r'</?(div|span|p)[^>]*>'` at the current position:
replacement is empty, and the returned length covers `<`, the optional slash,
the tag-name group, the greedy `[^>]*` body and the closing `>`. -/
def matchTagAt (l : List Char) : Option (List Char × Nat) :=
  match l with
  | c :: r0 =>
    if c = '<' then
      let slash := if r0.head? = some '/' then 1 else 0
      let r1 := r0.drop slash
      match tagNameLen r1 with
      | some g =>
        let r2 := r1.drop g
        let body := r2.takeWhile (fun b => b ≠ '>')
        if (r2.drop body.length).head? = some '>' then
          some ([], 1 + slash + g + body.length + 1)
        else none
      | none => none
    else none
  | [] => none

/-- `re.sub(_html_tag_regex, '', processed)`. -/
def stripTags (l : List Char) : List Char := scanSub matchTagAt l

/-- Numeric value of a digit run. -/
def digitsVal (ds : List Char) : Nat :=
  ds.foldl (fun a c => a * 10 + (c.toNat - 48)) 0

def placeholderPre : List Char := "CODE_BLOCK_".toList

def placeholderSuf : List Char := "_PLACEHOLDER".toList

/-- The pattern `r'CODE_BLOCK_(\d+)_PLACEHOLDER'` at the current position;
returns the numeric value of the `(\d+)` group. -/
def matchPlaceholderAt (l : List Char) : Option Nat :=
  if placeholderPre.isPrefixOf l then
    let r := l.drop 11
    let ds := r.takeWhile Char.isDigit
    if ds.isEmpty then none
    else if placeholderSuf.isPrefixOf (r.drop ds.length) then
      some (digitsVal ds)
    else none
  else none

/-- Index group of the leftmost placeholder match, if any.  The restoring
`re.sub` calls `format_code_block` on its first match, and that call always
raises (see `escapeBody`), so only the leftmost match matters. -/
def firstPlaceholder : List Char → Option Nat
  | [] => none
  | c :: rest =>
    match matchPlaceholderAt (c :: rest) with
    | some i => some i
    | none => firstPlaceholder rest

/-- Lazy `(.+?)` search: smallest `m ≥ 1` such that the next `m` characters
contain no newline (`.` does not match a newline, no `re.DOTALL` here) and
are followed by the closing delimiter. -/
def findLazyClose (close : List Char) : List Char → Option Nat
  | [] => none
  | c :: rest =>
    if c = '\n' then none
    else if close.isPrefixOf rest then some 1
    else (findLazyClose close rest).map (· + 1)

/-- Replacement template `r'<strong>\1\2</strong>'` (exactly one of the two
groups is non-empty, the other contributes nothing). -/
def strongWrap (g : List Char) : List Char :=
  "<strong>".toList ++ g ++ "</strong>".toList

/-- Replacement template `r'<em>\1\2</em>'`. -/
def emWrap (g : List Char) : List Char :=
  "<em>".toList ++ g ++ "</em>".toList

/-- Second alternative `__(.+?)__` of `_bold_regex`. -/
def matchBoldUnderscore (l : List Char) : Option (List Char × Nat) :=
  if ['_', '_'].isPrefixOf l then
    match findLazyClose ['_', '_'] (l.drop 2) with
    | some m => some (strongWrap ((l.drop 2).take m), 2 + m + 2)
    | none => none
  else none

/-- `_bold_regex = r'\*\*(.+?)\*\*|__(.+?)__'` at the current position. -/
def matchBoldAt (l : List Char) : Option (List Char × Nat) :=
  if ['*', '*'].isPrefixOf l then
    match findLazyClose ['*', '*'] (l.drop 2) with
    | some m => some (strongWrap ((l.drop 2).take m), 2 + m + 2)
    | none => matchBoldUnderscore l
  else matchBoldUnderscore l

/-- Second alternative `_(.+?)_` of `_italic_regex`. -/
def matchItalicUnderscore (l : List Char) : Option (List Char × Nat) :=
  if ['_'].isPrefixOf l then
    match findLazyClose ['_'] (l.drop 1) with
    | some m => some (emWrap ((l.drop 1).take m), 1 + m + 1)
    | none => none
  else none

/-- `_italic_regex = r'\*(.+?)\*|_(.+?)_'` at the current position. -/
def matchItalicAt (l : List Char) : Option (List Char × Nat) :=
  if ['*'].isPrefixOf l then
    match findLazyClose ['*'] (l.drop 1) with
    | some m => some (emWrap ((l.drop 1).take m), 1 + m + 1)
    | none => matchItalicUnderscore l
  else matchItalicUnderscore l

/-- `re.sub(_bold_regex, r'<strong>\1\2</strong>', processed)`. -/
def boldSub (l : List Char) : List Char := scanSub matchBoldAt l

/-- `re.sub(_italic_regex, r'<em>\1\2</em>', processed)`. -/
def italicSub (l : List Char) : List Char := scanSub matchItalicAt l

/-- The Python exception kinds the sanitizer body can raise. -/
inductive PyErr where
  | typeError
  | indexError
deriving DecidableEq

/-- `str(e)` of the exceptions above, as produced by CPython:
`CODE_BLOCK_STYLE['bg_color']` on a `str` raises
`TypeError("string indices must be integers")`, and `code_blocks[index]` out
of range raises `IndexError("list index out of range")`. -/
def pyErrMsg : PyErr → String
  | .typeError => "string indices must be integers"
  | .indexError => "list index out of range"

/-- The `try:` body of `escape_html_preserve_markdown`:

1. code blocks and inline code spans are replaced by numbered placeholders
   and saved (`save_code_block`);
2. the `.replace` chain runs (only `&` and the apostrophe are changed, see
   `pyEscapeStep`);
3. `_html_tag_regex` matches are removed;
4. `re.sub(r'CODE_BLOCK_(\d+)_PLACEHOLDER', format_code_block, ...)` runs.
   On its first match `format_code_block` evaluates either
   `code_blocks[index]` — an `IndexError` when the index is out of range
   (possible when the input itself contains a placeholder token) — or one of
   the two f-strings, whose first interpolation `CODE_BLOCK_STYLE['bg_color']`
   subscripts a string with a string key and raises a `TypeError`
   (`CODE_BLOCK_STYLE` is a `str` in `src/styles.py`).  Hence the `re.sub`
   raises whenever a placeholder is present, and the exception kind is
   decided by the leftmost placeholder;
5. otherwise the bold and italic substitutions run and the text is returned.
-/
def escapeBody (text : String) : Except PyErr String :=
  let saved := saveCodeBlocks text.data
  let escaped := pyEscapeStep saved.1
  let stripped := stripTags escaped
  match firstPlaceholder stripped with
  | some idx =>
    .error (if idx < saved.2.length then PyErr.typeError else PyErr.indexError)
  | none => .ok (String.mk (italicSub (boldSub stripped)))

/-- `escape_html_preserve_markdown` from `src/utils.py`: the `try` body with
its `except Exception as e: return f'Error processing message content: {str(e)}'`
handler.  (`functools.lru_cache` is semantically transparent on a pure
function and is not modelled.) -/
def escape_html_preserve_markdown (text : String) : String :=
  match escapeBody text with
  | .ok s => s
  | .error e => "Error processing message content: " ++ pyErrMsg e

/-!
## `src/display.py` — `format_footnotes`

```
pattern = r'\[\^([^\]^]+)\^?\]|\d+↩'
footnotes_pattern = r'\n\s*Footnotes\s*\n.*$'   (flags=re.DOTALL)
```
-/

/-- Python `\s` on the ASCII range (space, tab, newline, carriage return,
vertical tab, form feed); the repository only ever feeds ASCII whitespace to
these patterns. -/
def pyWhitespace (c : Char) : Bool :=
  c = ' ' || c = '\t' || c = '\n' || c = '\r' || c = Char.ofNat 11 ||
    c = Char.ofNat 12

/-- Python `str.strip()` (on such ASCII whitespace). -/
def pyStrip (s : String) : String :=
  String.mk (((s.data.dropWhile pyWhitespace).reverse.dropWhile
    pyWhitespace).reverse)

/-- The f-string used when the footnote text looks like an image reference. -/
def footnoteBlockHtml (fn : String) : List Char :=
  ("\n<div style=\"margin: 10px 0; padding: 10px; background-color: #f8f9fa; border-radius: 5px;\">"
    ++ fn ++ "</div>\n").toList

/-- The f-string used for an ordinary text footnote. -/
def footnoteInlineHtml (fn : String) : List Char :=
  (" <span style=\"background-color: #f8f9fa; padding: 4px 8px; border-radius: 3px; border-left: 2px solid #6c757d; margin: 0 4px; font-size: 0.9em;\">("
    ++ fn ++ ")</span>").toList

/-- `replace_footnote`: a reference whose key is in the mapping becomes a
block container when the footnote text starts (after `strip`) with `![`, and
an inline annotation otherwise; an unknown key leaves the matched text
unchanged.  The footnote mapping (a Python `dict` with unique keys) is
modelled as an association list. -/
def footnoteRepl (fns : List (String × String)) (ref : String)
    (orig : List Char) : List Char :=
  match fns.lookup ref with
  | some fn =>
    if "![".toList.isPrefixOf (pyStrip fn).data then footnoteBlockHtml fn
    else footnoteInlineHtml fn
  | none => orig

/-- First alternative `\[\^([^\]^]+)\^?\]` of the footnote pattern: `[^`,
then a non-empty greedy run of characters other than `]` and `^`, then an
optional `^`, then `]`. -/
def matchFootnoteBracket (fns : List (String × String)) :
    List Char → Option (List Char × Nat)
  | '[' :: '^' :: r =>
    let key := r.takeWhile (fun c => c ≠ ']' && c ≠ '^')
    if key.isEmpty then none
    else
      match r.drop key.length with
      | '^' :: ']' :: _ =>
        some (footnoteRepl fns (String.mk key)
          ('[' :: '^' :: (key ++ ['^', ']'])), 2 + key.length + 2)
      | ']' :: _ =>
        some (footnoteRepl fns (String.mk key)
          ('[' :: '^' :: (key ++ [']'])), 2 + key.length + 1)
      | _ => none
  | _ => none

/-- The back-reference arrow `↩` (`U+21A9`). -/
def returnArrow : Char := Char.ofNat 8617

/-- Second alternative `\d+↩`: here `match.group(1)` is `None`, so the
reference key is the matched text with the arrow removed, i.e. the digits. -/
def matchFootnoteBare (fns : List (String × String)) (l : List Char) :
    Option (List Char × Nat) :=
  let ds := l.takeWhile Char.isDigit
  if ds.isEmpty then none
  else if (l.drop ds.length).head? = some returnArrow then
    some (footnoteRepl fns (String.mk ds) (l.take (ds.length + 1)),
      ds.length + 1)
  else none

/-- The full footnote pattern, alternatives in order. -/
def matchFootnoteAt (fns : List (String × String)) (l : List Char) :
    Option (List Char × Nat) :=
  match matchFootnoteBracket fns l with
  | some r => some r
  | none => matchFootnoteBare fns l

def footnotesWord : List Char := "Footnotes".toList

/-- Does `footnotes_pattern = r'\n\s*Footnotes\s*\n.*$'` (with `re.DOTALL`)
match at the current position?  The leading `\n` must be literal; `\s*` is
greedy and deterministic (shortening it leaves a whitespace character where
`F` is required), and `\s*\n` after the word requires a newline inside the
maximal whitespace run that follows.  `.*$` then swallows the rest of the
string. -/
def footnotesHeaderAt : List Char → Bool
  | '\n' :: r =>
    let r1 := r.dropWhile pyWhitespace
    if footnotesWord.isPrefixOf r1 then
      ((r1.drop 9).takeWhile pyWhitespace).contains '\n'
    else false
  | _ => false

/-- Index of the leftmost match of `footnotes_pattern`, if any. -/
def footnotesCutIndex : List Char → Option Nat
  | [] => none
  | c :: rest =>
    if footnotesHeaderAt (c :: rest) then some 0
    else (footnotesCutIndex rest).map (· + 1)

/-- `format_footnotes` from `src/display.py`: early return on an empty
mapping, reference substitution, then truncation at the leftmost
`footnotes_pattern` match (the match is replaced by the empty string and,
since `.*$` reaches the end of the string, everything after the match start
is dropped). -/
def format_footnotes (content : String) (footnotes : List (String × String)) :
    String :=
  if footnotes.isEmpty then content
  else
    let formatted := scanSub (matchFootnoteAt footnotes) content.data
    match footnotesCutIndex formatted with
    | some i => String.mk (formatted.take i)
    | none => String.mk formatted

/-!
## `src/display.py` — the timeline of `display_formatted_conversation`

```
context_dict = {ctx['id']: ctx for ctx in contexts}
timeline = []
for msg in messages:
    timeline.append(('message', msg.get('timestamp', 0), msg))
    if msg.get('context_id') and msg.get('context_id') in context_dict:
        timeline.append(('context', msg.get('timestamp', 0),
                         context_dict[msg.get('context_id')]))
timeline.sort(key=lambda x: x[1])
```
-/

/-- A message of `analytics_data["message_history"]`, restricted to the
fields the timeline uses.  `timestamp`/`context_id` are `Option`s because the
code reads them with `.get` and a missing key behaves like `None`. -/
structure Message where
  timestamp : Option Int
  context_id : Option String
  content : String
deriving DecidableEq, Repr

/-- A context entry as returned by the database projection
(`id`, `data`, `timestamp`). -/
structure CtxRecord where
  id : String
  data : String
  timestamp : Option Int
deriving DecidableEq, Repr

/-- A timeline entry: the `('message'|'context', timestamp, item)` tuple. -/
inductive TItem where
  | message (ts : Int) (msg : Message)
  | context (ts : Int) (ctx : CtxRecord)
deriving DecidableEq, Repr

/-- The sort key `lambda x: x[1]`. -/
def tkey : TItem → Int
  | .message ts _ => ts
  | .context ts _ => ts

def isContextItem : TItem → Bool
  | .context _ _ => true
  | .message _ _ => false

/-- `{ctx['id']: ctx for ctx in contexts}[cid]`: in a dict comprehension a
later entry with the same id overwrites an earlier one, so lookup returns the
last record with the given id. -/
def dictLookup (ctxs : List CtxRecord) (cid : String) : Option CtxRecord :=
  ctxs.foldl (fun acc c => if c.id = cid then some c else acc) none

/-- The loop body for one message: the message entry, then a context entry
when `msg.get('context_id')` is truthy (present and non-empty) and the id is
a key of `context_dict`.  Both entries carry `msg.get('timestamp', 0)`. -/
def codeCtxEmit (ctxs : List CtxRecord) (m : Message) : List TItem :=
  match m.context_id with
  | none => []
  | some cid =>
    if cid = "" then []
    else
      match dictLookup ctxs cid with
      | some c => [TItem.context (m.timestamp.getD 0) c]
      | none => []

/-- The `timeline` list before sorting. -/
def buildTimeline (msgs : List Message) (ctxs : List CtxRecord) : List TItem :=
  match msgs with
  | [] => []
  | m :: rest =>
    (TItem.message (m.timestamp.getD 0) m :: codeCtxEmit ctxs m)
      ++ buildTimeline rest ctxs

/-- Stable insertion: the new element goes in front of the first element
whose key is not smaller, so it lands after every earlier-inserted element
with a strictly smaller key and before every element with an equal key. -/
def insertByKey (key : TItem → Int) (x : TItem) : List TItem → List TItem
  | [] => [x]
  | y :: ys =>
    if key x ≤ key y then x :: y :: ys else y :: insertByKey key x ys

/-- A stable ascending sort by key, the semantics of Python's
`list.sort(key=...)` (Timsort is stable and sorts ascending). -/
def pySortByKey (key : TItem → Int) : List TItem → List TItem
  | [] => []
  | x :: xs => insertByKey key x (pySortByKey key xs)

/-- The sorted timeline that `display_formatted_conversation` iterates
over. -/
def displayTimeline (msgs : List Message) (ctxs : List CtxRecord) :
    List TItem :=
  pySortByKey tkey (buildTimeline msgs ctxs)

/-- Modelled from the spec (amended wording of the claim): the Context-kind
item a message is supposed to produce — one exactly when its `context_id` is
set to a non-empty string that resolves in the mapping built from the context
list, carrying the referencing message's timestamp (not the context entry's
own `timestamp` field). -/
def specContextItem (ctxs : List CtxRecord) (m : Message) : Option TItem :=
  match m.context_id with
  | some cid =>
    if cid = "" then none
    else (dictLookup ctxs cid).map (fun c => TItem.context (m.timestamp.getD 0) c)
  | none => none

/-!
## `src/database.py` — `fetch_conversation_data`
-/

/-- The argument passed for `conversation_id`; the function is meant to be
called with a string but nothing stops a caller passing something else. -/
inductive PyArg where
  | pyStr (s : String)
  | pyInt (n : Int)
  | pyNone
deriving DecidableEq, Repr

/-- `isinstance(conversation_id, str)`. -/
def isStringArg : PyArg → Bool
  | .pyStr _ => true
  | _ => false

/-- A document of the `conversations` collection; either id field may be
absent. -/
structure ConversationRecord where
  id : Option String
  conversation_id : Option String
deriving DecidableEq, Repr

/-- A document of the `analytics` collection. -/
structure AnalyticsRecord where
  conversation_id : Option String
  message_history : List Message
deriving DecidableEq, Repr

/-- The state of the two MongoDB databases: the three collections (in their
natural order, which is the order `find_one`/`find` scan) and a flag that
makes every storage operation raise, modelling connection or query
failures. -/
structure Store where
  conversations : List ConversationRecord
  analytics : List AnalyticsRecord
  contexts : List CtxRecord
  connFail : Bool
deriving DecidableEq, Repr

/-- What the body of `fetch_conversation_data` can raise: the explicit
`ValueError` for a non-string id (the spec's `InvalidArgument`), or an error
out of the storage layer. -/
inductive FetchErr where
  | invalidArgument
  | dbError
deriving DecidableEq, Repr

/-- The 4-tuple the function returns. -/
abbrev FetchTuple :=
  Option ConversationRecord × Option AnalyticsRecord ×
    Option (List CtxRecord) × Option (List Message)

def noneTuple : FetchTuple := (none, none, none, none)

/-- `app_db.conversations.find_one({"$or": [{"id": cid}, {"conversation_id": cid}]})`. -/
def findConversation (db : Store) (cid : String) : Option ConversationRecord :=
  db.conversations.find? (fun r =>
    r.id == some cid || r.conversation_id == some cid)

/-- `feedback_db.analytics.find_one({"conversation_id": cid})`. -/
def findAnalytics (db : Store) (cid : String) : Option AnalyticsRecord :=
  db.analytics.find? (fun a => a.conversation_id == some cid)

/-- `{msg.get("context_id") for msg in messages if msg.get("context_id")}`:
the truthiness filter drops both a missing `context_id` and an empty one.
(The set is only ever used for membership, so a list of its elements is an
adequate model.) -/
def truthyContextIds (messages : List Message) : List String :=
  messages.filterMap (fun m =>
    match m.context_id with
    | some c => if c = "" then none else some c
    | none => none)

/-- The `try:` body of `fetch_conversation_data`: validation, the two
`find_one` lookups with their falsiness early returns, and the `$in` query
for the referenced context entries. -/
def fetchBody (conversation_id : PyArg) (db : Store) :
    Except FetchErr FetchTuple :=
  match conversation_id with
  | .pyStr s =>
    if db.connFail then .error .dbError
    else
      match findConversation db s with
      | none => .ok noneTuple
      | some conv =>
        match findAnalytics db s with
        | none => .ok noneTuple
        | some analytics =>
          let messages := analytics.message_history
          let contextIds := truthyContextIds messages
          let contextEntries :=
            if contextIds.isEmpty then ([] : List CtxRecord)
            else db.contexts.filter (fun c => contextIds.contains c.id)
          .ok (some conv, some analytics, some contextEntries, some messages)
  | _ => .error .invalidArgument

/-- `fetch_conversation_data` from `src/database.py`: the body above wrapped
in `except Exception: return None, None, None, None`. -/
def fetch_conversation_data (conversation_id : PyArg) (db : Store) :
    FetchTuple :=
  match fetchBody conversation_id db with
  | .ok t => t
  | .error _ => noneTuple

/-!
## Auxiliary decidable predicates used to state the claims
-/

/-- Does `_code_block_regex` match anywhere in the text? -/
def existsMatchCode : List Char → Bool
  | [] => false
  | c :: rest => (matchCodeAt (c :: rest)).isSome || existsMatchCode rest

/-- Does `pat` occur as a contiguous substring of the text? -/
def containsSub (pat : List Char) : List Char → Bool
  | [] => pat.isEmpty
  | c :: rest => pat.isPrefixOf (c :: rest) || containsSub pat rest

/-- "Contains none of the five HTML-significant characters
`&`, `<`, `>`, `"`, `'`" — the precondition named by the idempotence
claim. -/
def htmlSigFree (s : String) : Bool :=
  s.data.all (fun c =>
    c ≠ '&' && c ≠ '<' && c ≠ '>' && c ≠ quoteChar && c ≠ aposChar)

/-- A character on which every pass of the sanitizer is inert: not one of
the five HTML-significant characters, not a backtick (no code spans), and
not `*` or `_` (no bold/italic markup; this also rules out the literal
placeholder token, which contains underscores). -/
def sanitizeInert (c : Char) : Bool :=
  c ≠ '&' && c ≠ '<' && c ≠ '>' && c ≠ quoteChar && c ≠ aposChar &&
    c ≠ backtick && c ≠ '*' && c ≠ '_'

/-!
## Helper lemmas

First: a `re.sub` scan is the identity when the matcher can never fire, which
we establish through a per-character trigger property `P`.
-/

theorem scanSubF_id (m : List Char → Option (List Char × Nat))
    (P : Char → Prop) (hm : ∀ c rest, P c → m (c :: rest) = none) :
    ∀ fuel l, (∀ c ∈ l, P c) → scanSubF m fuel l = l := by
  intro fuel
  induction fuel with
  | zero => intro l _; cases l <;> rfl
  | succ n ih =>
    intro l h
    cases l with
    | nil => rfl
    | cons c rest =>
      have hc : P c := h c (List.mem_cons_self ..)
      rw [scanSubF, hm c rest hc]
      exact congrArg (c :: ·) (ih rest (fun b hb => h b (List.mem_cons_of_mem _ hb)))

theorem matchCodeAt_none (c : Char) (rest : List Char) (h : c ≠ backtick) :
    matchCodeAt (c :: rest) = none := by
  have h' : backtick ≠ c := Ne.symm h
  have h3 : tripleTick.isPrefixOf (c :: rest) = false := by
    simp [tripleTick, List.replicate, List.isPrefixOf, beq_iff_eq, h']
  have hinl : matchInlineCode (c :: rest) = none := by
    simp [matchInlineCode, h]
  simp [matchCodeAt, h3, hinl]

theorem matchTagAt_none (c : Char) (rest : List Char) (h : c ≠ '<') :
    matchTagAt (c :: rest) = none := by
  simp [matchTagAt, h]

theorem matchBoldAt_none (c : Char) (rest : List Char) (h1 : c ≠ '*')
    (h2 : c ≠ '_') : matchBoldAt (c :: rest) = none := by
  have h1' : ('*' : Char) ≠ c := Ne.symm h1
  have h2' : ('_' : Char) ≠ c := Ne.symm h2
  have hs : (['*', '*'].isPrefixOf (c :: rest)) = false := by
    simp [List.isPrefixOf, beq_iff_eq, h1']
  have hu : (['_', '_'].isPrefixOf (c :: rest)) = false := by
    simp [List.isPrefixOf, beq_iff_eq, h2']
  simp [matchBoldAt, matchBoldUnderscore, hs, hu]

theorem matchItalicAt_none (c : Char) (rest : List Char) (h1 : c ≠ '*')
    (h2 : c ≠ '_') : matchItalicAt (c :: rest) = none := by
  have h1' : ('*' : Char) ≠ c := Ne.symm h1
  have h2' : ('_' : Char) ≠ c := Ne.symm h2
  have hs : (['*'].isPrefixOf (c :: rest)) = false := by
    simp [List.isPrefixOf, beq_iff_eq, h1']
  have hu : (['_'].isPrefixOf (c :: rest)) = false := by
    simp [List.isPrefixOf, beq_iff_eq, h2']
  simp [matchItalicAt, matchItalicUnderscore, hs, hu]

theorem matchPlaceholderAt_none (l : List Char) (h : ∀ c ∈ l, c ≠ '_') :
    matchPlaceholderAt l = none := by
  have hpre : placeholderPre.isPrefixOf l = false := by
    cases hp : placeholderPre.isPrefixOf l
    · rfl
    · have hmem : '_' ∈ l :=
        List.IsPrefix.mem (by decide : '_' ∈ placeholderPre)
          (List.isPrefixOf_iff_prefix.mp hp)
      exact absurd rfl (h _ hmem)
  simp [matchPlaceholderAt, hpre]

theorem firstPlaceholder_none (l : List Char) (h : ∀ c ∈ l, c ≠ '_') :
    firstPlaceholder l = none := by
  induction l with
  | nil => rfl
  | cons c rest ih =>
    rw [firstPlaceholder, matchPlaceholderAt_none _ h]
    exact ih (fun b hb => h b (List.mem_cons_of_mem _ hb))

theorem pyReplace_self (c : Char) : ∀ l, pyReplace c [c] l = l := by
  intro l
  induction l with
  | nil => rfl
  | cons a rest ih =>
    by_cases hac : a = c <;> simp [pyReplace, hac, ih]

theorem pyReplace_id (c : Char) (rep : List Char) :
    ∀ l, (∀ a ∈ l, a ≠ c) → pyReplace c rep l = l := by
  intro l h
  induction l with
  | nil => rfl
  | cons a rest ih =>
    have ha : a ≠ c := h a (List.mem_cons_self ..)
    simp [pyReplace, ha, ih (fun b hb => h b (List.mem_cons_of_mem _ hb))]

theorem pyEscapeStep_id (l : List Char) (hamp : ∀ a ∈ l, a ≠ '&')
    (hapos : ∀ a ∈ l, a ≠ aposChar) : pyEscapeStep l = l := by
  unfold pyEscapeStep
  rw [pyReplace_id '&' _ l hamp, pyReplace_self '<', pyReplace_self '>',
    pyReplace_self quoteChar, pyReplace_id aposChar _ l hapos]

theorem saveCodeBlocksF_id :
    ∀ fuel l k, existsMatchCode l = false → saveCodeBlocksF fuel l k = (l, []) := by
  intro fuel
  induction fuel with
  | zero => intro l k _; cases l <;> rfl
  | succ n ih =>
    intro l k h
    cases l with
    | nil => rfl
    | cons c rest =>
      rw [existsMatchCode, Bool.or_eq_false_iff] at h
      have hmc : matchCodeAt (c :: rest) = none :=
        Option.not_isSome_iff_eq_none.mp (by simp [h.1])
      rw [saveCodeBlocksF, hmc]
      simp [ih rest k h.2]

theorem saveCodeBlocks_id (l : List Char) (h : existsMatchCode l = false) :
    saveCodeBlocks l = (l, []) :=
  saveCodeBlocksF_id l.length l 0 h

/-!
Stability of the timeline sort: inserting an element never disturbs the
relative order of elements sharing any key value, and the sorted result is
pairwise ordered by key.
-/

theorem mem_insertByKey (key : TItem → Int) (x z : TItem) :
    ∀ l, z ∈ insertByKey key x l ↔ z = x ∨ z ∈ l := by
  intro l
  induction l with
  | nil => simp [insertByKey]
  | cons y ys ih =>
    by_cases hle : key x ≤ key y
    · simp [insertByKey, hle]
    · simp only [insertByKey, if_neg hle, List.mem_cons, ih]
      tauto

theorem pairwise_insertByKey (key : TItem → Int) (x : TItem) :
    ∀ l, List.Pairwise (fun a b => key a ≤ key b) l →
      List.Pairwise (fun a b => key a ≤ key b) (insertByKey key x l) := by
  intro l h
  induction l with
  | nil => simp [insertByKey]
  | cons y ys ih =>
    rcases List.pairwise_cons.mp h with ⟨hy, hys⟩
    by_cases hle : key x ≤ key y
    · rw [insertByKey, if_pos hle]
      exact List.pairwise_cons.mpr
        ⟨fun z hz => by
          rcases List.mem_cons.mp hz with hz | hz
          · exact hz ▸ hle
          · exact le_trans hle (hy z hz), h⟩
    · rw [insertByKey, if_neg hle]
      exact List.pairwise_cons.mpr
        ⟨fun z hz => by
          rcases (mem_insertByKey key x z ys).mp hz with hz | hz
          · exact hz ▸ le_of_lt (lt_of_not_le hle)
          · exact hy z hz, ih hys⟩

theorem pairwise_pySortByKey (key : TItem → Int) :
    ∀ l, List.Pairwise (fun a b => key a ≤ key b) (pySortByKey key l) := by
  intro l
  induction l with
  | nil => exact List.Pairwise.nil
  | cons x xs ih => exact pairwise_insertByKey key x _ ih

theorem filter_insertByKey (key : TItem → Int) (t : Int) (x : TItem) :
    ∀ l, (insertByKey key x l).filter (fun y => decide (key y = t))
      = (x :: l).filter (fun y => decide (key y = t)) := by
  intro l
  induction l with
  | nil => rfl
  | cons y ys ih =>
    by_cases hle : key x ≤ key y
    · rw [insertByKey, if_pos hle]
    · rw [insertByKey, if_neg hle]
      have hlt : key y < key x := lt_of_not_le hle
      by_cases hx : key x = t <;> by_cases hy : key y = t
      · exfalso; rw [hx] at hlt; rw [hy] at hlt; exact lt_irrefl t hlt
      all_goals simp [List.filter_cons, hx, hy, ih]

theorem filter_pySortByKey (key : TItem → Int) (t : Int) :
    ∀ l, (pySortByKey key l).filter (fun y => decide (key y = t))
      = l.filter (fun y => decide (key y = t)) := by
  intro l
  induction l with
  | nil => rfl
  | cons x xs ih =>
    rw [pySortByKey, filter_insertByKey, List.filter_cons, List.filter_cons, ih]

theorem sanitizeInert_spec (c : Char) (h : sanitizeInert c = true) :
    c ≠ '&' ∧ c ≠ '<' ∧ c ≠ '>' ∧ c ≠ quoteChar ∧ c ≠ aposChar ∧
      c ≠ backtick ∧ c ≠ '*' ∧ c ≠ '_' := by
  simp only [sanitizeInert, Bool.and_eq_true, decide_eq_true_eq] at h
  tauto

theorem existsMatchCode_eq_false (l : List Char)
    (h : ∀ c ∈ l, c ≠ backtick) : existsMatchCode l = false := by
  induction l with
  | nil => rfl
  | cons c rest ih =>
    rw [existsMatchCode, matchCodeAt_none c rest (h c (List.mem_cons_self ..))]
    simp [ih (fun b hb => h b (List.mem_cons_of_mem _ hb))]

/-- On text made of inert characters the whole `try` body is the
identity. -/
theorem escapeBody_ok_of_inert (s : String)
    (h : ∀ c ∈ s.data, sanitizeInert c = true) : escapeBody s = .ok s := by
  have h8 := fun c hc => sanitizeInert_spec c (h c hc)
  have hsave : saveCodeBlocks s.data = (s.data, []) :=
    saveCodeBlocks_id _
      (existsMatchCode_eq_false _ (fun c hc => (h8 c hc).2.2.2.2.2.1))
  have hesc : pyEscapeStep s.data = s.data :=
    pyEscapeStep_id _ (fun c hc => (h8 c hc).1)
      (fun c hc => (h8 c hc).2.2.2.2.1)
  have hstrip : stripTags s.data = s.data :=
    scanSubF_id matchTagAt (fun c => c ≠ '<') matchTagAt_none _ _
      (fun c hc => (h8 c hc).2.1)
  have hph : firstPlaceholder s.data = none :=
    firstPlaceholder_none _ (fun c hc => (h8 c hc).2.2.2.2.2.2.2)
  have hbold : boldSub s.data = s.data :=
    scanSubF_id matchBoldAt (fun c => c ≠ '*' ∧ c ≠ '_')
      (fun c rest hc => matchBoldAt_none c rest hc.1 hc.2) _ _
      (fun c hc => ⟨(h8 c hc).2.2.2.2.2.2.1, (h8 c hc).2.2.2.2.2.2.2⟩)
  have hital : italicSub s.data = s.data :=
    scanSubF_id matchItalicAt (fun c => c ≠ '*' ∧ c ≠ '_')
      (fun c rest hc => matchItalicAt_none c rest hc.1 hc.2) _ _
      (fun c hc => ⟨(h8 c hc).2.2.2.2.2.2.1, (h8 c hc).2.2.2.2.2.2.2⟩)
  unfold escapeBody
  simp only [hsave, hesc, hstrip, hph, hbold, hital]

/-- The filter/filterMap refinement behind the context-emission claim. -/
theorem buildTimeline_context_items (msgs : List Message)
    (ctxs : List CtxRecord) :
    (buildTimeline msgs ctxs).filter isContextItem
      = msgs.filterMap (specContextItem ctxs) := by
  induction msgs with
  | nil => rfl
  | cons m rest ih =>
    rw [buildTimeline]
    cases hcid : m.context_id with
    | none =>
      simp [codeCtxEmit, specContextItem, hcid, List.filter_append,
        List.filter_cons, isContextItem, ih]
    | some cid =>
      by_cases hempty : cid = ""
      · simp [codeCtxEmit, specContextItem, hcid, hempty, List.filter_append,
          List.filter_cons, isContextItem, ih]
      · cases hlk : dictLookup ctxs cid with
        | none =>
          simp [codeCtxEmit, specContextItem, hcid, hempty, hlk,
            List.filter_append, List.filter_cons, isContextItem, ih]
        | some c =>
          simp [codeCtxEmit, specContextItem, hcid, hempty, hlk,
            List.filter_append, List.filter_cons, isContextItem, ih]

/-!
## The claims
-/

/-- **C1.** The claim says the sanitizer escapes all five HTML-significant
characters outside code and re-inserts code spans wrapped in styled
containers.  The code does neither: the `.replace` chain replaces `<`, `>`
and `"` by themselves, so `escape_html_preserve_markdown "a<b"` returns
`"a<b"` with the `<` unescaped; and on the spec's own example
`"Use `x<y` here"` the restoration step subscripts the string
`CODE_BLOCK_STYLE` with `'bg_color'`, raising a `TypeError`, so the function
returns the error fallback instead of any code container.  This theorem
evaluates the code at those failing inputs. -/
theorem c1_sanitizer_divergence :
    escapeBody "Use `x<y` here" = .error PyErr.typeError
    ∧ escape_html_preserve_markdown "Use `x<y` here"
        = "Error processing message content: " ++ pyErrMsg PyErr.typeError
    ∧ escape_html_preserve_markdown "a<b" = "a<b" :=
  ⟨rfl, rfl, rfl⟩

/-- **C2.** The timeline is ordered by timestamp ascending with a stable
sort: the sorted output is pairwise ordered on the key, and for every key
value the items carrying it appear in exactly their emission (insertion)
order.  In particular timestamps `[5, 1, 3]` come out `[1, 3, 5]`, and two
messages sharing timestamp `2` keep their input order. -/
theorem c2_timeline_stable_sort :
    (∀ (msgs : List Message) (ctxs : List CtxRecord),
        List.Pairwise (fun a b => tkey a ≤ tkey b) (displayTimeline msgs ctxs)
        ∧ ∀ t : Int,
            (displayTimeline msgs ctxs).filter (fun y => decide (tkey y = t))
              = (buildTimeline msgs ctxs).filter (fun y => decide (tkey y = t)))
    ∧ displayTimeline
        [⟨some 5, none, "m5"⟩, ⟨some 1, none, "m1"⟩, ⟨some 3, none, "m3"⟩] []
        = [TItem.message 1 ⟨some 1, none, "m1"⟩,
           TItem.message 3 ⟨some 3, none, "m3"⟩,
           TItem.message 5 ⟨some 5, none, "m5"⟩]
    ∧ displayTimeline
        [⟨some 2, none, "first"⟩, ⟨some 2, none, "second"⟩] []
        = [TItem.message 2 ⟨some 2, none, "first"⟩,
           TItem.message 2 ⟨some 2, none, "second"⟩] :=
  ⟨fun msgs ctxs =>
    ⟨pairwise_pySortByKey tkey (buildTimeline msgs ctxs),
     fun t => filter_pySortByKey tkey t (buildTimeline msgs ctxs)⟩,
    rfl, rfl⟩

/-- **C3, counterexample.** A message whose `context_id` is set (to the
empty string) and resolves in the mapping built from the context list —
`dictLookup` succeeds — nevertheless produces no Context-kind item, because
the code tests `msg.get('context_id')` for truthiness and the empty string
is falsy.  This refutes "emits a Context-kind item exactly when the
message's contextId is set and resolves in the mapping". -/
theorem c3_counterexample :
    (Message.context_id ⟨some 7, some "", "m"⟩).isSome = true
    ∧ (dictLookup [⟨"", "d", some 99⟩] "").isSome = true
    ∧ buildTimeline [⟨some 7, some "", "m"⟩] [⟨"", "d", some 99⟩]
        = [TItem.message 7 ⟨some 7, some "", "m"⟩] :=
  ⟨rfl, rfl, rfl⟩

/-- **C3, amended.** A Context-kind item is emitted exactly when the
message's `contextId` is set to a *non-empty* string that resolves in the
mapping built from the context list; the item carries the referencing
message's timestamp (`specContextItem` uses `m.timestamp`, never the
context entry's own `timestamp`), and an unresolvable `contextId` produces
no item and no error (everything here is a total function). -/
theorem c3_context_emission (msgs : List Message) (ctxs : List CtxRecord) :
    (buildTimeline msgs ctxs).filter isContextItem
      = msgs.filterMap (specContextItem ctxs) :=
  buildTimeline_context_items msgs ctxs

/-- **C4, counterexample.** On the input `"CODE_BLOCK_0_PLACEHOLDER"` the
body raises (an `IndexError`, since the input contains a placeholder token
but no code block was collected), yet the function does *not* return the
fixed literal `"Error processing message content"`: the handler appends the
exception text. -/
theorem c4_counterexample :
    (escapeBody "CODE_BLOCK_0_PLACEHOLDER").isOk = false
    ∧ escape_html_preserve_markdown "CODE_BLOCK_0_PLACEHOLDER"
        ≠ "Error processing message content" := by
  exact ⟨rfl, by decide⟩

/-- **C4, amended.** Any exception of the body is caught and converted to
the string consisting of the fixed prefix `"Error processing message
content: "` followed by the exception text; it is never propagated (the
function is total). -/
theorem c4_error_fallback (s : String) (e : PyErr)
    (h : escapeBody s = .error e) :
    escape_html_preserve_markdown s
      = "Error processing message content: " ++ pyErrMsg e := by
  simp [escape_html_preserve_markdown, h]

theorem c4_error_fallback_witness :
    escapeBody "CODE_BLOCK_0_PLACEHOLDER" = .error PyErr.indexError
    ∧ escape_html_preserve_markdown "CODE_BLOCK_0_PLACEHOLDER"
        = "Error processing message content: " ++ pyErrMsg PyErr.indexError :=
  ⟨rfl, c4_error_fallback "CODE_BLOCK_0_PLACEHOLDER" PyErr.indexError rfl⟩

/-- **C5, counterexample.** A non-string argument does raise the
`InvalidArgument` (`ValueError`) internally, but the error is *not*
surfaced to the caller: the function's own `except Exception` handler
converts it to the all-`None` tuple, indistinguishable from a miss. -/
theorem c5_counterexample :
    fetchBody (.pyInt 42) ⟨[], [], [], false⟩ = .error .invalidArgument
    ∧ fetch_conversation_data (.pyInt 42) ⟨[], [], [], false⟩ = noneTuple :=
  ⟨rfl, rfl⟩

/-- **C5, amended.** For every non-string argument the body raises
`InvalidArgument` before any storage I/O — the result is `invalidArgument`
even on a store whose every operation fails, so validation precedes I/O —
and the caller receives the all-`None` tuple rather than an error. -/
theorem c5_invalid_argument (a : PyArg) (db : Store)
    (h : isStringArg a = false) :
    fetchBody a db = .error .invalidArgument
    ∧ fetch_conversation_data a db = noneTuple := by
  cases a with
  | pyStr s => exact absurd h (by simp [isStringArg])
  | pyInt n => exact ⟨rfl, rfl⟩
  | pyNone => exact ⟨rfl, rfl⟩

theorem c5_invalid_argument_witness :
    isStringArg (.pyInt 42) = false
    ∧ (fetchBody (.pyInt 42) ⟨[], [], [], true⟩ = .error .invalidArgument
       ∧ fetch_conversation_data (.pyInt 42) ⟨[], [], [], true⟩ = noneTuple) :=
  ⟨rfl, c5_invalid_argument (.pyInt 42) ⟨[], [], [], true⟩ rfl⟩

/-- **C6.** Whenever no analytics record exists for the id, the fetch
returns the all-absent tuple — with no assumption on the `conversations`
collection, so in particular also when a conversation record was found. -/
theorem c6_missing_analytics (s : String) (db : Store)
    (h : findAnalytics db s = none) :
    fetch_conversation_data (.pyStr s) db = noneTuple := by
  simp only [fetch_conversation_data, fetchBody]
  cases hc : db.connFail with
  | true => rfl
  | false =>
    cases hf : findConversation db s with
    | none => rfl
    | some conv => simp [h]

theorem c6_missing_analytics_witness :
    findAnalytics ⟨[⟨some "c1", none⟩], [], [], false⟩ "c1" = none
    ∧ (findConversation ⟨[⟨some "c1", none⟩], [], [], false⟩ "c1").isSome = true
    ∧ fetch_conversation_data (.pyStr "c1")
        ⟨[⟨some "c1", none⟩], [], [], false⟩ = noneTuple :=
  ⟨rfl, rfl, c6_missing_analytics "c1" ⟨[⟨some "c1", none⟩], [], [], false⟩ rfl⟩

/-- **C7, counterexample.** On the spec's example the `[^1]` reference is
replaced by the inline annotation, but the trailing `"Footnotes"` section is
*not* removed: `footnotes_pattern` requires a newline before the word
`Footnotes`, and in the example the header follows `". "` on the same line.
The output still contains the `"Footnotes"` text. -/
theorem c7_counterexample :
    format_footnotes "See note[^1]. Footnotes\n1. Extra detail"
        [("1", "Extra detail")]
      = "See note" ++ String.mk (footnoteInlineHtml "Extra detail")
          ++ ". Footnotes\n1. Extra detail"
    ∧ containsSub "Footnotes".toList
        (format_footnotes "See note[^1]. Footnotes\n1. Extra detail"
          [("1", "Extra detail")]).data = true := by
  exact ⟨rfl, rfl⟩

/-- **C7, amended.** Reference tokens (`[^key]`, `[^key^]`, `<digits>↩`)
whose key is in the (non-empty) mapping are replaced — by a block container
when the footnote text starts with `![`, an inline annotation otherwise,
unknown keys staying untouched — and the content is truncated at a trailing
`Footnotes` header only when that header stands on a line of its own
(preceded by a newline and followed by one); an empty mapping returns the
content unchanged, with no truncation. -/
theorem c7_footnote_behaviour :
    format_footnotes "See note[^1].\nFootnotes\n1. Extra detail"
        [("1", "Extra detail")]
      = "See note" ++ String.mk (footnoteInlineHtml "Extra detail") ++ "."
    ∧ format_footnotes "x[^2^] y 3↩" [("2", "![img](u)"), ("3", "t3")]
        = "x" ++ String.mk (footnoteBlockHtml "![img](u)") ++ " y "
            ++ String.mk (footnoteInlineHtml "t3")
    ∧ format_footnotes "q[^a]r[^zz]s" [("a", "A")]
        = "q" ++ String.mk (footnoteInlineHtml "A") ++ "r[^zz]s"
    ∧ format_footnotes "a\nFootnotes\nb" [] = "a\nFootnotes\nb"
    ∧ format_footnotes "a\nFootnotes\nb" [("9", "z")] = "a" :=
  ⟨rfl, rfl, rfl, rfl, rfl⟩

/-- **C8, counterexample.** `<details>` and `<summary>` tags are not
stripped: the tag regex names only `div`, `span` and `p`.  The claimed
output would drop the tags; the code returns the input unchanged. -/
theorem c8_counterexample :
    escape_html_preserve_markdown "<details>x</details>"
        = "<details>x</details>"
    ∧ escape_html_preserve_markdown "<summary>y</summary>"
        = "<summary>y</summary>" :=
  ⟨rfl, rfl⟩

/-- **C8, amended.** After the escaping chain, the sanitizer strips the
tags matched by `r'</?(div|span|p)[^>]*>'` (tags whose name begins with
`div`, `span` or `p`; `details`/`summary` are not among them), and the strip
runs while code spans are held as placeholders, i.e. only over the non-code
portions: whenever the code-block pattern matches nowhere and no placeholder
token survives to the restoration step, the output is exactly
bold/italic-substitution after `stripTags` after the escape chain. -/
theorem c8_tag_strip :
    (∀ s : String, existsMatchCode s.data = false →
        firstPlaceholder (stripTags (pyEscapeStep s.data)) = none →
        escape_html_preserve_markdown s
          = String.mk (italicSub (boldSub (stripTags (pyEscapeStep s.data)))))
    ∧ escape_html_preserve_markdown "<div>a</div> <span>b</span> <p>c</p>"
        = "a b c" := by
  constructor
  · intro s h1 h2
    unfold escape_html_preserve_markdown escapeBody
    simp only [saveCodeBlocks_id s.data h1, h2]
  · rfl

theorem c8_tag_strip_witness :
    existsMatchCode ("<div>a</div>").data = false
    ∧ firstPlaceholder (stripTags (pyEscapeStep ("<div>a</div>").data)) = none
    ∧ escape_html_preserve_markdown "<div>a</div>"
        = String.mk (italicSub (boldSub
            (stripTags (pyEscapeStep ("<div>a</div>").data)))) :=
  ⟨rfl, rfl, c8_tag_strip.1 "<div>a</div>" rfl rfl⟩

/-- **C9, counterexample.** `"*a_b*c_"` contains none of the five
HTML-significant characters, yet the sanitizer is not idempotent on it: the
first pass yields `"<em>a_b</em>c_"`, and the second pass pairs the
remaining underscores across the emitted tags, yielding
`"<em>a<em>b</em>c</em>"`. -/
theorem c9_counterexample :
    htmlSigFree "*a_b*c_" = true
    ∧ escape_html_preserve_markdown (escape_html_preserve_markdown "*a_b*c_")
        ≠ escape_html_preserve_markdown "*a_b*c_" := by
  exact ⟨rfl, by decide⟩

/-- **C9, amended.** The sanitizer is the identity — hence idempotent — on
strings whose characters are inert: none of the five HTML-significant
characters, no backtick (code spans), and no `*`/`_` (bold/italic markup,
which also rules out the placeholder token).  Re-sanitizing a string
containing `&` or `'` *does* double-escape (see the counterexample of the
original claim and `pyEscapeStep`). -/
theorem c9_idempotent_on_inert (s : String)
    (h : ∀ c ∈ s.data, sanitizeInert c = true) :
    escape_html_preserve_markdown s = s
    ∧ escape_html_preserve_markdown (escape_html_preserve_markdown s)
        = escape_html_preserve_markdown s := by
  have hs : escape_html_preserve_markdown s = s := by
    unfold escape_html_preserve_markdown
    rw [escapeBody_ok_of_inert s h]
  exact ⟨hs, by rw [hs]; exact hs⟩

theorem c9_idempotent_on_inert_witness :
    (∀ c ∈ ("hello world").data, sanitizeInert c = true)
    ∧ escape_html_preserve_markdown "hello world" = "hello world" :=
  ⟨by decide, (c9_idempotent_on_inert "hello world" (by decide)).1⟩

/-- **C10.** `fetch_conversation_data` is total at its boundary: a
non-string argument, a failing storage layer, and every internal error all
map to the all-`None` tuple, and the result is always either that tuple or a
fully populated one. -/
theorem c10_fetch_total (a : PyArg) (db : Store) :
    (isStringArg a = false → fetch_conversation_data a db = noneTuple)
    ∧ (db.connFail = true → fetch_conversation_data a db = noneTuple)
    ∧ (∀ e, fetchBody a db = .error e →
        fetch_conversation_data a db = noneTuple)
    ∧ (fetch_conversation_data a db = noneTuple
       ∨ ∃ conv ana ctxs msgs, fetch_conversation_data a db
           = (some conv, some ana, some ctxs, some msgs)) := by
  refine ⟨?_, ?_, ?_, ?_⟩
  · intro h
    cases a with
    | pyStr s => exact absurd h (by simp [isStringArg])
    | pyInt n => rfl
    | pyNone => rfl
  · intro h
    cases a with
    | pyStr s => simp [fetch_conversation_data, fetchBody, h]
    | pyInt n => rfl
    | pyNone => rfl
  · intro e h
    simp [fetch_conversation_data, h]
  · cases a with
    | pyInt n => exact Or.inl rfl
    | pyNone => exact Or.inl rfl
    | pyStr s =>
      simp only [fetch_conversation_data, fetchBody]
      cases hc : db.connFail with
      | true => exact Or.inl rfl
      | false =>
        cases hf : findConversation db s with
        | none => exact Or.inl rfl
        | some conv =>
          cases ha : findAnalytics db s with
          | none => exact Or.inl rfl
          | some ana => exact Or.inr ⟨conv, ana, _, _, rfl⟩

theorem c10_fetch_total_witness :
    isStringArg PyArg.pyNone = false
    ∧ fetch_conversation_data PyArg.pyNone ⟨[], [], [], true⟩ = noneTuple :=
  ⟨rfl, (c10_fetch_total PyArg.pyNone ⟨[], [], [], true⟩).1 rfl⟩

end Dashboard
